import Mathlib

set_option maxRecDepth 40000

/-!
Verification development for the steiger build-and-publish orchestrator.

The Rust source is shallowly embedded: pure functions become Lean
functions, async functions become explicit state/trace passing, machine
integers become `Nat` with explicit `% 2^32` where overflow matters, and
fallible code returns `Except`/`Option`.  External collaborators
(serde_json, olpc-cjson, sha2, oci-client, futures, tokio) are modelled
from their documented behaviour at exactly the call sites the source
uses.
-/

deriving instance DecidableEq for Except

namespace Steiger

/-- Byte strings are lists of naturals; each entry is intended `< 256`. -/
abbrev Bytes := List Nat

/-- Truncation to a 32-bit word, the implicit wrap-around of Rust `u32`
arithmetic inside the sha2 crate. -/
def w32 (x : Nat) : Nat := x % 4294967296

/-- 32-bit right rotation. -/
def rotr (n x : Nat) : Nat := w32 ((x >>> n) ||| (x <<< (32 - n)))

/-- SHA-256 big sigma 0. -/
def bsig0 (x : Nat) : Nat := (rotr 2 x) ^^^ (rotr 13 x) ^^^ (rotr 22 x)

/-- SHA-256 big sigma 1. -/
def bsig1 (x : Nat) : Nat := (rotr 6 x) ^^^ (rotr 11 x) ^^^ (rotr 25 x)

/-- SHA-256 small sigma 0. -/
def ssig0 (x : Nat) : Nat := (rotr 7 x) ^^^ (rotr 18 x) ^^^ (x >>> 3)

/-- SHA-256 small sigma 1. -/
def ssig1 (x : Nat) : Nat := (rotr 17 x) ^^^ (rotr 19 x) ^^^ (x >>> 10)

/-- SHA-256 choice function; complement is xor against the 32-bit mask. -/
def chf (x y z : Nat) : Nat := (x &&& y) ^^^ ((x ^^^ 4294967295) &&& z)

/-- SHA-256 majority function. -/
def maj (x y z : Nat) : Nat := (x &&& y) ^^^ (x &&& z) ^^^ (y &&& z)

/-- The 64 SHA-256 round constants. -/
def sha256K : List Nat :=
  [1116352408, 1899447441, 3049323471, 3921009573, 961987163,
   1508970993, 2453635748, 2870763221, 3624381080, 310598401,
   607225278, 1426881987, 1925078388, 2162078206, 2614888103,
   3248222580, 3835390401, 4022224774, 264347078, 604807628,
   770255983, 1249150122, 1555081692, 1996064986, 2554220882,
   2821834349, 2952996808, 3210313671, 3336571891, 3584528711,
   113926993, 338241895, 666307205, 773529912, 1294757372,
   1396182291, 1695183700, 1986661051, 2177026350, 2456956037,
   2730485921, 2820302411, 3259730800, 3345764771, 3516065817,
   3600352804, 4094571909, 275423344, 430227734, 506948616,
   659060556, 883997877, 958139571, 1322822218, 1537002063,
   1747873779, 1955562222, 2024104815, 2227730452, 2361852424,
   2428436474, 2756734187, 3204031479, 3329325298]

/-- Initial SHA-256 hash state. -/
def sha256H0 : List Nat :=
  [1779033703, 3144134277, 1013904242, 2773480762, 1359893119,
   2600822924, 528734635, 1541459225]

/-- Big-endian 8-byte encoding of a natural. -/
def be64 (n : Nat) : Bytes :=
  (List.range 8).map (fun i => (n >>> (8 * (7 - i))) % 256)

/-- Big-endian 4-byte encoding of a 32-bit word. -/
def be32 (n : Nat) : Bytes :=
  (List.range 4).map (fun i => (n >>> (8 * (3 - i))) % 256)

/-- SHA-256 padding: append 0x80, zero fill to 56 mod 64, then the
bit length as a big-endian 64-bit integer. -/
def sha256pad (msg : Bytes) : Bytes :=
  msg ++ [0x80] ++ List.replicate ((119 - msg.length % 64) % 64) 0 ++ be64 (8 * msg.length)

/-- Split a padded message into its 64-byte blocks. -/
def blocksOf (msg : Bytes) : List Bytes :=
  (List.range (msg.length / 64)).map (fun i => (msg.drop (64 * i)).take 64)

/-- The 16 big-endian 32-bit words of one block. -/
def words16 (block : Bytes) : List Nat :=
  (List.range 16).map (fun i =>
    (block.getD (4 * i) 0) <<< 24 + (block.getD (4 * i + 1) 0) <<< 16 +
    (block.getD (4 * i + 2) 0) <<< 8 + block.getD (4 * i + 3) 0)

/-- Extend 16 words to the 64-word message schedule. -/
def schedule (ws : List Nat) : List Nat :=
  (List.range 48).foldl
    (fun a i =>
      a ++ [w32 (ssig1 (a.getD (i + 14) 0) + a.getD (i + 9) 0 +
                 ssig0 (a.getD (i + 1) 0) + a.getD i 0)])
    ws

/-- One SHA-256 compression round on the 8-word working state. -/
def compressRound (st : List Nat) (kw : Nat × Nat) : List Nat :=
  match st with
  | [a, b, c, d, e, f, g, h] =>
    let t1 := w32 (h + bsig1 e + chf e f g + kw.1 + kw.2)
    let t2 := w32 (bsig0 a + maj a b c)
    [w32 (t1 + t2), a, b, c, w32 (d + t1), e, f, g]
  | other => other

/-- Compress one block into the running hash state. -/
def compressBlock (st : List Nat) (block : Bytes) : List Nat :=
  let ws := schedule (words16 block)
  let fin := (sha256K.zip ws).foldl compressRound st
  List.zipWith (fun x y => w32 (x + y)) st fin

/-- SHA-256 of a byte string, as 32 bytes. -/
def sha256 (msg : Bytes) : Bytes :=
  (((blocksOf (sha256pad msg)).foldl compressBlock sha256H0).map be32).flatten

/-- Lower-case hex digit. -/
def hexChar (n : Nat) : Char :=
  "0123456789abcdef".toList.getD n '0'

/-- Two lower-case hex digits of one byte. -/
def hexByte (b : Nat) : List Char :=
  [hexChar (b / 16), hexChar (b % 16)]

/-- Lower-case hex encoding of a byte string, as produced by the hex
crate's encode. -/
def hexOf (bs : Bytes) : String :=
  String.mk ((bs.map hexByte).flatten)

/-- The bytes of an ASCII string; models Rust's UTF-8 view for the
ASCII-only content appearing in manifests and digests. -/
def strBytes (s : String) : Bytes := s.data.map Char.toNat

/-- Digest string of a blob exactly as `ImageLayer::sha256_digest`
produces it in the oci-client crate. -/
def sha256_digest (data : Bytes) : String :=
  "sha256:" ++ hexOf (sha256 data)

/-- An OCI content descriptor, as in oci-client's `OciDescriptor`.  The
`urls` field, absent from the layouts this program reads, is omitted;
annotations are a key-sorted association list, modelling `BTreeMap`. -/
structure OciDescriptor where
  media_type : String
  digest : String
  size : Nat
  annotations : Option (List (String × String))
deriving DecidableEq, Repr

/-- An OCI image manifest, as in oci-client's `OciImageManifest`
(`subject`/`artifact_type`, absent from the layouts this program
reads, are omitted). -/
structure OciImageManifest where
  schema_version : Nat
  media_type : Option String
  config : OciDescriptor
  layers : List OciDescriptor
  annotations : Option (List (String × String))
deriving DecidableEq, Repr

/-- A platform tag from an image index entry. -/
structure Platform where
  os : String
  architecture : String
  variant : Option String
deriving DecidableEq, Repr

/-- One manifest descriptor of the top-level `index.json`. -/
structure IndexEntry where
  media_type : String
  digest : String
  size : Nat
  platform : Option Platform
deriving DecidableEq, Repr

/-- The top-level OCI image index. -/
structure OciImageIndex where
  schema_version : Nat
  media_type : Option String
  manifests : List IndexEntry
deriving DecidableEq, Repr

/-- The raw config blob, as in oci-client's `Config`. -/
structure ConfigBlob where
  data : Bytes
  media_type : String
  annotations : Option (List (String × String))
deriving DecidableEq, Repr

/-- A loaded layer, as in oci-client's `ImageLayer`. -/
structure ImageLayer where
  data : Bytes
  media_type : String
  annotations : Option (List (String × String))
deriving DecidableEq, Repr

/-- The in-memory image of `src/image/mod.rs`. -/
structure Image where
  digest : String
  config : ConfigBlob
  manifest : OciImageManifest
  platform : Option Platform
  layers : List ImageLayer
deriving DecidableEq, Repr

/-- Insert one pair into a key-sorted association list. -/
def insertByKey (p : String × String) : List (String × String) → List (String × String)
  | [] => [p]
  | q :: rest => if p.1 < q.1 then p :: q :: rest else q :: insertByKey p rest

/-- Sort an association list by key; models both `BTreeMap` iteration
order and the key sorting of olpc-cjson's `CanonicalFormatter`. -/
def sortByKey (l : List (String × String)) : List (String × String) :=
  l.foldr insertByKey []

/-- JSON string escaping as serde_json emits it (quote, backslash,
and the control characters). -/
def escapeChar (c : Char) : List Char :=
  if c = '"' then ['\\', '"']
  else if c = '\\' then ['\\', '\\']
  else if c.toNat ≥ 32 then [c]
  else match c.toNat with
    | 8 => ['\\', 'b']
    | 9 => ['\\', 't']
    | 10 => ['\\', 'n']
    | 12 => ['\\', 'f']
    | 13 => ['\\', 'r']
    | n => ['\\', 'u', '0', '0', hexChar (n / 16), hexChar (n % 16)]

/-- A JSON string literal. -/
def jsonStr (s : String) : String :=
  "\"" ++ String.mk ((s.data.map escapeChar).flatten) ++ "\""

/-- Canonical JSON of an annotations map: keys sorted, no whitespace. -/
def annotationsJson (kvs : List (String × String)) : String :=
  "\x7b" ++ String.intercalate ","
    ((sortByKey kvs).map (fun kv => jsonStr kv.1 ++ ":" ++ jsonStr kv.2)) ++ "\x7d"

/-- Canonical JSON of a descriptor: serde field emission rewritten by
`CanonicalFormatter` into lexicographically sorted key order
(annotations, digest, mediaType, size), `None` fields skipped. -/
def descriptorJson (d : OciDescriptor) : String :=
  "\x7b" ++ String.intercalate ","
    ((match d.annotations with
      | some a => [jsonStr "annotations" ++ ":" ++ annotationsJson a]
      | none => []) ++
     [jsonStr "digest" ++ ":" ++ jsonStr d.digest,
      jsonStr "mediaType" ++ ":" ++ jsonStr d.media_type,
      jsonStr "size" ++ ":" ++ toString d.size]) ++ "\x7d"

/-- Canonical JSON of a manifest: sorted key order is annotations,
config, layers, mediaType, schemaVersion; `None` fields skipped. -/
def manifestJson (m : OciImageManifest) : String :=
  "\x7b" ++ String.intercalate ","
    ((match m.annotations with
      | some a => [jsonStr "annotations" ++ ":" ++ annotationsJson a]
      | none => []) ++
     [jsonStr "config" ++ ":" ++ descriptorJson m.config,
      jsonStr "layers" ++ ":" ++ "[" ++
        String.intercalate "," (m.layers.map descriptorJson) ++ "]"] ++
     (match m.media_type with
      | some mt => [jsonStr "mediaType" ++ ":" ++ jsonStr mt]
      | none => []) ++
     [jsonStr "schemaVersion" ++ ":" ++ toString m.schema_version]) ++ "\x7d"

/-- The loader's `compute_digest`: sha256 over the canonical
(key-sorted, whitespace-free) JSON serialization of the manifest.
Serializing a well-formed in-memory struct cannot fail, so the Rust
`Result` collapses to a total function. -/
def compute_digest (m : OciImageManifest) : String :=
  "sha256:" ++ hexOf (sha256 (strBytes (manifestJson m)))

/-- Parsed JSON values (objects keep on-disk member order). -/
inductive Json where
  | null
  | bool (b : Bool)
  | num (n : Nat)
  | str (s : String)
  | arr (xs : List Json)
  | obj (kvs : List (String × Json))
deriving Repr

/-- Drop insignificant JSON whitespace. -/
def skipWs : List Char → List Char
  | [] => []
  | c :: rest =>
    if c = ' ' ∨ c = '\n' ∨ c = '\t' ∨ c = '\r' then skipWs rest else c :: rest

/-- Decode one escape character of a JSON string (the `\uXXXX` form,
unused by the ASCII content at hand, is not modelled). -/
def unescape (c : Char) : Option Char :=
  if c = '"' then some '"'
  else if c = '\\' then some '\\'
  else if c = '/' then some '/'
  else if c = 'n' then some '\n'
  else if c = 't' then some '\t'
  else if c = 'r' then some '\r'
  else if c = 'b' then some (Char.ofNat 8)
  else if c = 'f' then some (Char.ofNat 12)
  else none

/-- Parse the remainder of a JSON string after the opening quote. -/
def parseStringChars : List Char → Option (List Char × List Char)
  | [] => none
  | c :: rest =>
    if c = '"' then some ([], rest)
    else if c = '\\' then
      match rest with
      | [] => none
      | e :: rest2 =>
        match unescape e with
        | none => none
        | some ch =>
          match parseStringChars rest2 with
          | none => none
          | some (s, r) => some (ch :: s, r)
    else
      match parseStringChars rest with
      | none => none
      | some (s, r) => some (c :: s, r)

/-- Longest digit run at the front of the input. -/
def spanDigits : List Char → (List Char × List Char)
  | [] => ([], [])
  | c :: rest =>
    if c.isDigit then
      let (d, r) := spanDigits rest
      (c :: d, r)
    else ([], c :: rest)

/-- Decimal value of a digit run. -/
def natOfDigits (ds : List Char) : Nat :=
  ds.foldl (fun a c => a * 10 + (c.toNat - 48)) 0

/-- Consume an expected literal character sequence. -/
def dropLit : List Char → List Char → Option (List Char)
  | [], cs => some cs
  | l :: ls, c :: cs => if c = l then dropLit ls cs else none
  | _ :: _, [] => none

mutual

/-- Fuel-indexed JSON value parser; models serde_json's grammar for the
ASCII subset appearing in OCI layouts (non-negative integers only). -/
def parseVal : Nat → List Char → Option (Json × List Char)
  | 0, _ => none
  | fuel + 1, cs =>
    match skipWs cs with
    | [] => none
    | c :: rest =>
      if c = '"' then
        match parseStringChars rest with
        | some (s, r) => some (.str (String.mk s), r)
        | none => none
      else if c = '\x7b' then
        match skipWs rest with
        | '\x7d' :: r => some (.obj [], r)
        | _ =>
          match parseMembers fuel rest with
          | some (kvs, r) => some (.obj kvs, r)
          | none => none
      else if c = '[' then
        match skipWs rest with
        | ']' :: r => some (.arr [], r)
        | _ =>
          match parseItems fuel rest with
          | some (xs, r) => some (.arr xs, r)
          | none => none
      else if c = 't' then
        match dropLit ['r', 'u', 'e'] rest with
        | some r => some (.bool true, r)
        | none => none
      else if c = 'f' then
        match dropLit ['a', 'l', 's', 'e'] rest with
        | some r => some (.bool false, r)
        | none => none
      else if c = 'n' then
        match dropLit ['u', 'l', 'l'] rest with
        | some r => some (.null, r)
        | none => none
      else if c.isDigit then
        let (d, r) := spanDigits (c :: rest)
        some (.num (natOfDigits d), r)
      else none

/-- Members of a non-empty JSON object. -/
def parseMembers : Nat → List Char → Option (List (String × Json) × List Char)
  | 0, _ => none
  | fuel + 1, cs =>
    match skipWs cs with
    | '"' :: rest =>
      match parseStringChars rest with
      | none => none
      | some (k, r1) =>
        match skipWs r1 with
        | ':' :: r2 =>
          match parseVal fuel r2 with
          | none => none
          | some (v, r3) =>
            match skipWs r3 with
            | ',' :: r4 =>
              match parseMembers fuel r4 with
              | some (kvs, r5) => some ((String.mk k, v) :: kvs, r5)
              | none => none
            | '\x7d' :: r4 => some ([(String.mk k, v)], r4)
            | _ => none
        | _ => none
    | _ => none

/-- Items of a non-empty JSON array. -/
def parseItems : Nat → List Char → Option (List Json × List Char)
  | 0, _ => none
  | fuel + 1, cs =>
    match parseVal fuel cs with
    | none => none
    | some (v, r) =>
      match skipWs r with
      | ',' :: r2 =>
        match parseItems fuel r2 with
        | some (xs, r3) => some (v :: xs, r3)
        | none => none
      | ']' :: r2 => some ([v], r2)
      | _ => none

end

/-- Parse a complete JSON document (value followed only by whitespace). -/
def parseJson (s : String) : Option Json :=
  match parseVal (2 * s.length + 4) s.data with
  | some (j, r) => if (skipWs r).isEmpty then some j else none
  | none => none

/-- First binding of a key in an object, as serde field lookup. -/
def lookupKey (k : String) : List (String × Json) → Option Json
  | [] => none
  | kv :: rest => if kv.1 = k then some kv.2 else lookupKey k rest

/-- String view of a JSON value. -/
def asString : Json → Option String
  | .str s => some s
  | _ => none

/-- Natural-number view of a JSON value. -/
def asNat : Json → Option Nat
  | .num n => some n
  | _ => none

/-- Deserialize an annotations map; sorting models `BTreeMap`. -/
def annotationsOfJson : Json → Option (List (String × String))
  | .obj kvs =>
    (kvs.mapM (fun (kv : String × Json) =>
      match kv.2 with
      | .str s => some (kv.1, s)
      | _ => none)).map sortByKey
  | _ => none

/-- An optional serde field: absent or `null` is `none`. -/
def optField (kvs : List (String × Json)) (k : String) (f : Json → Option α) :
    Option (Option α) :=
  match lookupKey k kvs with
  | none => some none
  | some .null => some none
  | some j => (f j).map some

/-- Deserialize an `OciDescriptor`. -/
def descriptorOfJson : Json → Option OciDescriptor
  | .obj kvs =>
    match lookupKey "mediaType" kvs >>= asString, lookupKey "digest" kvs >>= asString,
          lookupKey "size" kvs >>= asNat, optField kvs "annotations" annotationsOfJson with
    | some mt, some dg, some sz, some ann => some ⟨mt, dg, sz, ann⟩
    | _, _, _, _ => none
  | _ => none

/-- Deserialize an `OciImageManifest`. -/
def manifestOfJson : Json → Option OciImageManifest
  | .obj kvs =>
    match lookupKey "schemaVersion" kvs >>= asNat, optField kvs "mediaType" asString,
          lookupKey "config" kvs >>= descriptorOfJson,
          (match lookupKey "layers" kvs with
           | some (.arr xs) => xs.mapM descriptorOfJson
           | _ => none),
          optField kvs "annotations" annotationsOfJson with
    | some sv, some mt, some cfg, some ls, some ann => some ⟨sv, mt, cfg, ls, ann⟩
    | _, _, _, _, _ => none
  | _ => none

/-- Deserialize a `Platform`. -/
def platformOfJson : Json → Option Platform
  | .obj kvs =>
    match lookupKey "os" kvs >>= asString, lookupKey "architecture" kvs >>= asString,
          optField kvs "variant" asString with
    | some os, some arch, some var => some ⟨os, arch, var⟩
    | _, _, _ => none
  | _ => none

/-- Deserialize one entry of the index's `manifests` array. -/
def indexEntryOfJson : Json → Option IndexEntry
  | .obj kvs =>
    match lookupKey "mediaType" kvs >>= asString, lookupKey "digest" kvs >>= asString,
          lookupKey "size" kvs >>= asNat, optField kvs "platform" platformOfJson with
    | some mt, some dg, some sz, some pf => some ⟨mt, dg, sz, pf⟩
    | _, _, _, _ => none
  | _ => none

/-- Deserialize an `OciImageIndex`. -/
def indexOfJson : Json → Option OciImageIndex
  | .obj kvs =>
    match lookupKey "schemaVersion" kvs >>= asNat, optField kvs "mediaType" asString,
          (match lookupKey "manifests" kvs with
           | some (.arr xs) => xs.mapM indexEntryOfJson
           | _ => none) with
    | some sv, some mt, some ms => some ⟨sv, mt, ms⟩
    | _, _, _ => none
  | _ => none

/-- ASCII string view of blob bytes, as `serde_json::from_slice` sees
the ASCII-only JSON documents at hand. -/
def stringOfBytes (b : Bytes) : String := String.mk (b.map Char.ofNat)

/-- Parse manifest bytes, as `serde_json::from_slice::<OciImageManifest>`. -/
def parseManifestBytes (b : Bytes) : Option OciImageManifest :=
  parseJson (stringOfBytes b) >>= manifestOfJson

/-- Parse a manifest from text. -/
def parseManifest (s : String) : Option OciImageManifest :=
  parseJson s >>= manifestOfJson

/-- Parse index bytes, as `serde_json::from_slice::<OciImageIndex>`. -/
def parseIndexBytes (b : Bytes) : Option OciImageIndex :=
  parseJson (stringOfBytes b) >>= indexOfJson

/-- The typed error of `src/image/mod.rs` (`IO` or `Serde`). -/
inductive ImageError
  | ioErr
  | serde
deriving DecidableEq, Repr

/-- An on-disk OCI image layout directory: the contents of
`index.json` when present, and the blob files under
`blobs/<algorithm>/<hash>`, keyed here by their `algorithm:hash`
digest string. -/
structure Layout where
  indexFile : Option Bytes
  blobs : String → Option Bytes

/-- `BlobStore::read_blob`: read the blob file addressed by a digest;
a missing file is the I/O error of `tokio::fs::read`. -/
def read_blob (l : Layout) (digest : String) : Except ImageError Bytes :=
  match l.blobs digest with
  | some b => .ok b
  | none => .error .ioErr

/-- The layer loop of `load_from_path`: read each layer descriptor's
blob in order and wrap it with the descriptor's media type and
annotations carried through unmodified. -/
def loadLayers (l : Layout) : List OciDescriptor → Except ImageError (List ImageLayer)
  | [] => .ok []
  | d :: rest =>
    match read_blob l d.digest with
    | .error e => .error e
    | .ok data =>
      match loadLayers l rest with
      | .error e => .error e
      | .ok ls => .ok (⟨data, d.media_type, d.annotations⟩ :: ls)

/-- One iteration of `load_from_path`'s entry loop: read and parse the
manifest blob, read the layers, compute the canonical digest, read the
config blob, and assemble the `Image`. -/
def loadImage (l : Layout) (entry : IndexEntry) : Except ImageError Image :=
  match read_blob l entry.digest with
  | .error e => .error e
  | .ok mBytes =>
    match parseManifestBytes mBytes with
    | none => .error .serde
    | some manifest =>
      match loadLayers l manifest.layers with
      | .error e => .error e
      | .ok layers =>
        match read_blob l manifest.config.digest with
        | .error e => .error e
        | .ok cfgData =>
          .ok ⟨compute_digest manifest,
               ⟨cfgData, manifest.config.media_type, manifest.config.annotations⟩,
               manifest, entry.platform, layers⟩

/-- The entry loop of `load_from_path`. -/
def loadImages (l : Layout) : List IndexEntry → Except ImageError (List Image)
  | [] => .ok []
  | e :: rest =>
    match loadImage l e with
    | .error err => .error err
    | .ok img =>
      match loadImages l rest with
      | .error err => .error err
      | .ok imgs => .ok (img :: imgs)

/-- `load_from_path`: read and parse `index.json`, then load one image
per index entry. -/
def load_from_path (l : Layout) : Except ImageError (List Image) :=
  match l.indexFile with
  | none => .error .ioErr
  | some idx =>
    match parseIndexBytes idx with
    | none => .error .serde
    | some index => loadImages l index.manifests

/-- A `HashMap` membership test over its association-list contents. -/
def hmContains (m : List (String × α)) (k : String) : Bool :=
  m.any (fun kv => kv.1 == k)

/-- `HashMap::insert`: replace the binding of an existing key, or add a
new one. -/
def hmInsert (m : List (String × α)) (k : String) (v : α) : List (String × α) :=
  if hmContains m k then m.map (fun kv => if kv.1 == k then (k, v) else kv)
  else m ++ [(k, v)]

/-- `HashMap` lookup over its association-list contents. -/
def hmLookup (k : String) : List (String × α) → Option α
  | [] => none
  | kv :: rest => if kv.1 = k then some kv.2 else hmLookup k rest

/-- The dispatcher's `Output`: artifact name to images, a `HashMap`
modelled by its association-list contents (keys distinct). -/
structure Output where
  artifacts : List (String × List Image)
deriving DecidableEq, Repr

/-- `Output::merge`: insert every artifact of `other` into `self`,
replacing any existing binding of the same name. -/
def Output.merge (a : Output) (other : Output) : Output :=
  ⟨other.artifacts.foldl (fun m kv => hmInsert m kv.1 kv.2) a.artifacts⟩

/-- The three backend kinds matched by `MetaBuild::build`. -/
inductive Kind
  | ko
  | bazel
  | docker
deriving DecidableEq, Repr

/-- One configured service: its name and the backend kind of its
`Build` configuration variant (the per-backend payload is opaque to
the dispatcher and omitted). -/
structure Service where
  name : String
  build : Kind
deriving Repr

/-- `BuildError`, one transparent wrapper per backend kind; backend
error payloads are opaque and modelled as naturals. -/
inductive BuildError
  | ko (e : Nat)
  | bazel (e : Nat)
  | docker (e : Nat)
deriving DecidableEq, Repr

/-- The `.map_err(BuildError::Ko)` style wrapping per kind. -/
def wrapErr : Kind → Nat → BuildError
  | .ko, e => .ko e
  | .bazel, e => .bazel e
  | .docker, e => .docker e

/-- The ambient system a build run interacts with: `try_init` is a
deterministic function of the environment per backend kind (handles
are opaque cloneable values, modelled as naturals), and each spawned
task's eventual result is a function of its service name. -/
structure BuildEnv where
  tryInit : Kind → Except Nat Nat
  runBuild : String → Except Nat Output

/-- The per-kind cached handles of `MetaBuild` (`ko`, `bazel`,
`docker` fields). -/
structure Caches where
  ko : Option Nat
  bazel : Option Nat
  docker : Option Nat
deriving DecidableEq, Repr

/-- Read the cache field of a kind. -/
def Caches.get : Caches → Kind → Option Nat
  | c, .ko => c.ko
  | c, .bazel => c.bazel
  | c, .docker => c.docker

/-- Write the cache field of a kind. -/
def Caches.set : Caches → Kind → Option Nat → Caches
  | c, .ko, v => { c with ko := v }
  | c, .bazel, v => { c with bazel := v }
  | c, .docker, v => { c with docker := v }

/-- Observable dispatcher events: a `try_init` call for a kind, and a
task spawned for a service. -/
inductive DEvent
  | initCalled (k : Kind)
  | spawned (name : String)
deriving DecidableEq, Repr

/-- `run_builder`'s synchronous part: reuse the cached handle, else
call `try_init` (recorded as an event) and cache the clone on success;
an init failure propagates. -/
def run_builder (env : BuildEnv) (k : Kind) (cache : Option Nat) :
    Except Nat (Nat × Option Nat) × List DEvent :=
  match cache with
  | some b => (.ok (b, some b), [])
  | none =>
    match env.tryInit k with
    | .ok b => (.ok (b, some b), [.initCalled k])
    | .error e => (.error e, [.initCalled k])

/-- The spawn loop of `MetaBuild::build`: for each service in
configuration order, resolve the backend through the cache and spawn
its task; a `run_builder` error aborts the loop via `?`, leaving the
remaining services unspawned.  Returns the final caches and the
spawned tasks, plus the event trace. -/
def spawnPhase (env : BuildEnv) : List Service → Caches →
    Except BuildError (Caches × List (String × Kind)) × List DEvent
  | [], c => (.ok (c, []), [])
  | s :: rest, c =>
    match run_builder env s.build (Caches.get c s.build) with
    | (.error e, evs) => (.error (wrapErr s.build e), evs)
    | (.ok (_b, cached), evs) =>
      let c2 := Caches.set c s.build cached
      let (res, evs2) := spawnPhase env rest c2
      match res with
      | .ok (cFin, tasks) =>
        (.ok (cFin, (s.name, s.build) :: tasks), evs ++ .spawned s.name :: evs2)
      | .error e => (.error e, evs ++ .spawned s.name :: evs2)

/-- The result a spawned task resolves to, with the kind's error
wrapping applied. -/
def taskResult (env : BuildEnv) (t : String × Kind) : Except BuildError Output :=
  match env.runBuild t.1 with
  | .ok o => .ok o
  | .error e => .error (wrapErr t.2 e)

/-- The join loop of `MetaBuild::build`
(`while let Some(Ok(result)) = set.join_next().await { output.merge(result?) }`):
merge completed results in completion order, returning at the first
task error. -/
def joinAll : Output → List (Except BuildError Output) → Except BuildError Output
  | acc, [] => .ok acc
  | acc, .ok o :: rest => joinAll (acc.merge o) rest
  | _, .error e :: _ => .error e

/-- A fresh `MetaBuild` has no cached handles. -/
def emptyCaches : Caches := ⟨none, none, none⟩

/-- `MetaBuild::build`: spawn one task per configured service, then
join results.  `completionOrder` is the order `join_next` yields the
spawned tasks, a permutation of the spawn list chosen by the
scheduler. -/
def metaBuild (env : BuildEnv) (services : List Service)
    (completionOrder : List (String × Kind)) : Except BuildError Output :=
  match (spawnPhase env services emptyCaches).1 with
  | .error e => .error e
  | .ok _ => joinAll ⟨[]⟩ (completionOrder.map (taskResult env))

/-- Error codes of a registry error envelope (`OciErrorCode`); only
`ManifestUnknown` is distinguished by the source. -/
inductive OciErrorCode
  | manifestUnknown
  | otherCode
deriving DecidableEq, Repr

/-- The oci-client error variants the source distinguishes. -/
inductive OciDistributionError
  | imageManifestNotFound
  | registryError (errors : List OciErrorCode)
  | serverError (code : Nat)
  | otherError
deriving DecidableEq, Repr

/-- The registry's responses to the client calls `Registry::push`
makes, each deterministic for one push. -/
structure RegistryOracle where
  fetchManifestDigest : Except OciDistributionError String
  pullBlobChunk : String → Except OciDistributionError Unit
  pushBlobOp : String → Except OciDistributionError String
  pushManifestOp : Except OciDistributionError String

/-- The client calls `Registry::push` performs, in order. -/
inductive RegOp
  | storeAuth
  | fetchDigest
  | probeBlob (digest : String)
  | pushBlob (digest : String)
  | pushManifest
deriving DecidableEq, Repr

/-- oci-client's `PushResponse`. -/
structure PushResponse where
  config_url : String
  manifest_url : String
deriving DecidableEq, Repr

/-- `PushError` of `src/registry.rs`. -/
inductive PushError
  | oci (e : OciDistributionError)
deriving DecidableEq, Repr

/-- How a `Registry::push` call ends: a panic (the `unwrap` on the
descriptor lookup), an error, or `Ok` with `None` (skip) or `Some`
(pushed). -/
inductive PushOutcome
  | panicked
  | failed (e : PushError)
  | completed (r : Option PushResponse)
deriving DecidableEq, Repr

/-- `Registry::try_resolve_digest`: a found digest is `Some`, a
"manifest not found" error or an error envelope whose first error is
`ManifestUnknown` is `None`, and any other failure propagates. -/
def try_resolve_digest (o : RegistryOracle) :
    Except OciDistributionError (Option String) :=
  match o.fetchManifestDigest with
  | .ok digest => .ok (some digest)
  | .error .imageManifestNotFound => .ok none
  | .error (.registryError errs) =>
    if errs.head? = some .manifestUnknown then .ok none
    else .error (.registryError errs)
  | .error e => .error e

/-- Result of the blob batch: the trace of per-layer calls plus how it
ended. -/
inductive BatchOut
  | panicked (tr : List RegOp)
  | failed (e : OciDistributionError) (tr : List RegOp)
  | done (tr : List RegOp)
deriving DecidableEq, Repr

/-- The per-layer closure of `Registry::push`, sequenced over the
layers (one linearization of the concurrent batch): find the layer's
descriptor by its data's sha256 digest (`unwrap` panics when absent),
probe the blob with a 1-byte partial fetch, skip on success, push the
blob on a 404 server error, and fail the batch on any other error. -/
def pushLayers (o : RegistryOracle) (descs : List OciDescriptor) :
    List ImageLayer → BatchOut
  | [] => .done []
  | l :: rest =>
    let digest := sha256_digest l.data
    match descs.find? (fun d => d.digest == digest) with
    | none => .panicked []
    | some desc =>
      match o.pullBlobChunk desc.digest with
      | .ok _ =>
        match pushLayers o descs rest with
        | .done tr => .done (.probeBlob digest :: tr)
        | .failed e tr => .failed e (.probeBlob digest :: tr)
        | .panicked tr => .panicked (.probeBlob digest :: tr)
      | .error (.serverError code) =>
        if code = 404 then
          match o.pushBlobOp digest with
          | .ok _ =>
            match pushLayers o descs rest with
            | .done tr => .done (.probeBlob digest :: .pushBlob digest :: tr)
            | .failed e tr => .failed e (.probeBlob digest :: .pushBlob digest :: tr)
            | .panicked tr => .panicked (.probeBlob digest :: .pushBlob digest :: tr)
          | .error e => .failed e [.probeBlob digest, .pushBlob digest]
        else .failed (.serverError code) [.probeBlob digest]
      | .error e => .failed e [.probeBlob digest]

/-- The tail of `Registry::push` once the skip check has decided to
push: run the blob batch, push the config blob unconditionally, then
push the manifest last. -/
def pushRest (o : RegistryOracle) (image : Image) : PushOutcome × List RegOp :=
  let tr0 : List RegOp := [.storeAuth, .fetchDigest]
  match pushLayers o image.manifest.layers image.layers with
  | .panicked tr => (.panicked, tr0 ++ tr)
  | .failed e tr => (.failed (.oci e), tr0 ++ tr)
  | .done tr =>
    match o.pushBlobOp image.manifest.config.digest with
    | .error e => (.failed (.oci e), tr0 ++ tr ++ [.pushBlob image.manifest.config.digest])
    | .ok config_url =>
      match o.pushManifestOp with
      | .error e =>
        (.failed (.oci e),
         tr0 ++ tr ++ [.pushBlob image.manifest.config.digest, .pushManifest])
      | .ok manifest_url =>
        (.completed (some ⟨config_url, manifest_url⟩),
         tr0 ++ tr ++ [.pushBlob image.manifest.config.digest, .pushManifest])

/-- `Registry::push`: store auth, resolve the remote digest, skip when
it equals the image's computed digest, otherwise push blobs, config
and manifest. -/
def registryPush (o : RegistryOracle) (image : Image) : PushOutcome × List RegOp :=
  match try_resolve_digest o with
  | .error e => (.failed (.oci e), [.storeAuth, .fetchDigest])
  | .ok (some digest) =>
    if digest = image.digest then (.completed none, [.storeAuth, .fetchDigest])
    else pushRest o image
  | .ok none => pushRest o image

/-- State of one image's blob batch under
`buffer_unordered(16).try_for_each(..)`: blobs not yet started, blobs
in flight, and whether a failure has been observed. -/
structure BatchState where
  pending : Nat
  inflight : Nat
  failed : Bool
deriving DecidableEq, Repr

/-- Scheduler events of the blob batch. -/
inductive BatchEvent
  | start
  | finishOk
  | finishErr
deriving DecidableEq, Repr

/-- One scheduler step, modelling the documented semantics of the
futures combinators at this call site: `buffer_unordered(16)` polls at
most 16 blob futures concurrently, and `try_for_each` stops consuming
the stream at the first error, so no new blob operation starts once
one has failed. -/
inductive BatchStep : BatchState → BatchEvent → BatchState → Prop
  | start (p i : Nat) (hp : 0 < p) (hi : i < 16) :
      BatchStep ⟨p, i, false⟩ .start ⟨p - 1, i + 1, false⟩
  | finishOk (p i : Nat) (f : Bool) (hi : 0 < i) :
      BatchStep ⟨p, i, f⟩ .finishOk ⟨p, i - 1, f⟩
  | finishErr (p i : Nat) (f : Bool) (hi : 0 < i) :
      BatchStep ⟨p, i, f⟩ .finishErr ⟨p, i - 1, true⟩

/-- Multi-step execution of the batch scheduler. -/
inductive BatchExec : BatchState → List BatchEvent → BatchState → Prop
  | nil (s : BatchState) : BatchExec s [] s
  | cons {s₁ s₂ s₃ : BatchState} {e : BatchEvent} {tr : List BatchEvent} :
      BatchStep s₁ e s₂ → BatchExec s₂ tr s₃ → BatchExec s₁ (e :: tr) s₃

/-- The batch starts with all layer operations pending and none in
flight. -/
def batchInit (n : Nat) : BatchState := ⟨n, 0, false⟩

/-- Number of `try_init` calls for one kind in a dispatcher trace. -/
def countInit (k : Kind) : List DEvent → Nat
  | [] => 0
  | .initCalled k' :: rest => (if k' = k then 1 else 0) + countInit k rest
  | _ :: rest => countInit k rest

/-- The services spawned in a dispatcher trace, in order. -/
def spawnedNames (evs : List DEvent) : List String :=
  evs.filterMap (fun e =>
    match e with
    | .spawned n => some n
    | _ => none)

/-- On-disk manifest text of the example layout whose layer blob is
corrupted. -/
def exManifestStr : String :=
  "\x7b\"schemaVersion\":2,\"config\":\x7b\"mediaType\":\"application/vnd.oci.image.config.v1+json\",\"digest\":\"sha256:c1\",\"size\":2\x7d,\"layers\":[\x7b\"mediaType\":\"application/vnd.oci.image.layer.v1.tar\",\"digest\":\"sha256:1111\",\"size\":3\x7d]\x7d"

/-- On-disk `index.json` text of the example layout. -/
def exIndexStr : String :=
  "\x7b\"schemaVersion\":2,\"manifests\":[\x7b\"mediaType\":\"application/vnd.oci.image.manifest.v1+json\",\"digest\":\"sha256:m1\",\"size\":100\x7d]\x7d"

/-- Example layout with a corrupted layer blob: the file stored for
digest `sha256:1111` holds four bytes `AAAA`, while its descriptor
declares size 3 and a digest that is not the sha256 of those bytes. -/
def exLayout : Layout where
  indexFile := some (strBytes exIndexStr)
  blobs := fun d =>
    if d = "sha256:m1" then some (strBytes exManifestStr)
    else if d = "sha256:c1" then some [1, 2]
    else if d = "sha256:1111" then some [65, 65, 65, 65]
    else none

/-- The parsed manifest of the example layout. -/
def exManifest : OciImageManifest :=
  { schema_version := 2
    media_type := none
    config := ⟨"application/vnd.oci.image.config.v1+json", "sha256:c1", 2, none⟩
    layers := [⟨"application/vnd.oci.image.layer.v1.tar", "sha256:1111", 3, none⟩]
    annotations := none }

/-- The image `load_from_path` produces from the corrupted example
layout: the corrupt bytes are carried through unverified. -/
def exImage : Image :=
  { digest := "sha256:0a98654af699bc802e4531cbb0c6c52110d7f63576f4ef5ac59dba01e8e128d9"
    config := ⟨[1, 2], "application/vnd.oci.image.config.v1+json", none⟩
    manifest := exManifest
    platform := none
    layers := [⟨[65, 65, 65, 65], "application/vnd.oci.image.layer.v1.tar", none⟩] }

/-- sha256 digest of the empty blob. -/
def exEmptyDigest : String :=
  "sha256:e3b0c44298fc1c149afbf4c8996fb92427ae41e4649b934ca495991b7852b855"

/-- Manifest of the well-formed example image used for push scenarios:
its single layer descriptor's digest is the sha256 of the layer's
(empty) data. -/
def exPushManifest : OciImageManifest :=
  { schema_version := 2
    media_type := some "application/vnd.oci.image.manifest.v1+json"
    config := ⟨"application/vnd.oci.image.config.v1+json", "sha256:cf", 2, none⟩
    layers := [⟨"application/vnd.oci.image.layer.v1.tar", exEmptyDigest, 0, none⟩]
    annotations := none }

/-- Well-formed example image for push scenarios. -/
def exPushImage : Image :=
  { digest := "sha256:dd"
    config := ⟨[9], "application/vnd.oci.image.config.v1+json", none⟩
    manifest := exPushManifest
    platform := none
    layers := [⟨[], "application/vnd.oci.image.layer.v1.tar", none⟩] }

/-- A registry that has no manifest for the reference, holds none of
the blobs (probe answers 404), and accepts every upload. -/
def exOracleFresh : RegistryOracle :=
  { fetchManifestDigest := .error .imageManifestNotFound
    pullBlobChunk := fun _ => .error (.serverError 404)
    pushBlobOp := fun _ => .ok "u"
    pushManifestOp := .ok "m" }

/-- A registry already holding the example image's digest; every other
call would fail, so any transfer attempt would be visible. -/
def exOracleHeld : RegistryOracle :=
  { fetchManifestDigest := .ok "sha256:dd"
    pullBlobChunk := fun _ => .error .otherError
    pushBlobOp := fun _ => .error .otherError
    pushManifestOp := .error .otherError }

/-- A registry that already holds every blob (probes succeed). -/
def exOracleBlobsPresent : RegistryOracle :=
  { fetchManifestDigest := .error .imageManifestNotFound
    pullBlobChunk := fun _ => .ok ()
    pushBlobOp := fun _ => .ok "u"
    pushManifestOp := .ok "m" }

/-- A registry whose probe answers 404 and whose blob upload fails. -/
def exOracleUploadFails : RegistryOracle :=
  { fetchManifestDigest := .error .imageManifestNotFound
    pullBlobChunk := fun _ => .error (.serverError 404)
    pushBlobOp := fun _ => .error .otherError
    pushManifestOp := .ok "m" }

/-- A registry whose probe fails with a non-404 error. -/
def exOracleProbeFails : RegistryOracle :=
  { fetchManifestDigest := .error .imageManifestNotFound
    pullBlobChunk := fun _ => .error .otherError
    pushBlobOp := fun _ => .ok "u"
    pushManifestOp := .ok "m" }

/-- Dispatcher environment where both example tasks fail with distinct
backend errors. -/
def exEnvBothFail : BuildEnv :=
  { tryInit := fun _ => .ok 0
    runBuild := fun n => if n = "a" then .error 1 else .error 2 }

/-- Dispatcher environment where every task succeeds, producing one
artifact named after its service. -/
def exEnvAllOk : BuildEnv :=
  { tryInit := fun _ => .ok 0
    runBuild := fun n => .ok ⟨[(n, [])]⟩ }

/-- Two example services on distinct backends. -/
def exSvcs : List Service := [⟨"a", .ko⟩, ⟨"b", .docker⟩]

/-- Dispatcher environment where the docker backend's `try_init`
fails. -/
def exEnvInitFails : BuildEnv :=
  { tryInit := fun k =>
      match k with
      | .docker => .error 7
      | _ => .ok 0
    runBuild := fun _ => .ok ⟨[]⟩ }

/-- Three services: the middle one needs the failing docker backend. -/
def exSvcsInit : List Service := [⟨"a", .ko⟩, ⟨"b", .docker⟩, ⟨"c", .ko⟩]

/-- Example outputs for merge scenarios. -/
def exOutA : Output := ⟨[("x", [])]⟩

/-- Output with an artifact name disjoint from `exOutA`. -/
def exOutB : Output := ⟨[("y", [])]⟩

/-- Output claiming the same artifact name as `exOutA` with a
different image list. -/
def exOutX : Output := ⟨[("x", [exPushImage])]⟩

/-- A manifest encoding with incidental whitespace and one key
order. -/
def exEncSpaced : String :=
  "\x7b \"schemaVersion\": 2, \"mediaType\": \"m\", \"config\": \x7b \"mediaType\": \"c\", \"digest\": \"sha256:aa\", \"size\": 2 \x7d, \"layers\": [] \x7d"

/-- The same manifest encoded compactly with keys in another order. -/
def exEncReordered : String :=
  "\x7b\"layers\":[],\"config\":\x7b\"size\":2,\"digest\":\"sha256:aa\",\"mediaType\":\"c\"\x7d,\"mediaType\":\"m\",\"schemaVersion\":2\x7d"

/-- The manifest both example encodings denote. -/
def exEncManifest : OciImageManifest :=
  { schema_version := 2
    media_type := some "m"
    config := ⟨"c", "sha256:aa", 2, none⟩
    layers := []
    annotations := none }

/-- A registry answering the manifest fetch with an error envelope
whose first error code is `ManifestUnknown`. -/
def exOracleUnknown : RegistryOracle :=
  { fetchManifestDigest := .error (.registryError [.manifestUnknown])
    pullBlobChunk := fun _ => .ok ()
    pushBlobOp := fun _ => .ok "u"
    pushManifestOp := .ok "m" }

/-- A registry whose manifest fetch fails fatally. -/
def exOracleFatal : RegistryOracle :=
  { fetchManifestDigest := .error .otherError
    pullBlobChunk := fun _ => .ok ()
    pushBlobOp := fun _ => .ok "u"
    pushManifestOp := .ok "m" }

/-- The trace of a full push of the example image against the fresh
registry. -/
def exPushTrace : List RegOp :=
  [.storeAuth, .fetchDigest, .probeBlob exEmptyDigest, .pushBlob exEmptyDigest,
   .pushBlob "sha256:cf", .pushManifest]

/-- The example push descriptor found for the empty layer. -/
def exPushDesc : OciDescriptor :=
  ⟨"application/vnd.oci.image.layer.v1.tar", exEmptyDigest, 0, none⟩

/-- The empty example layer. -/
def exPushLayer : ImageLayer := ⟨[], "application/vnd.oci.image.layer.v1.tar", none⟩

/-- The corrupt example layer carried out of the corrupted layout. -/
def exCorruptLayer : ImageLayer := ⟨[65, 65, 65, 65], "application/vnd.oci.image.layer.v1.tar", none⟩

/-- Cache soundness: a cached handle is the one its kind's `try_init`
produced (holds by construction, since handles enter the cache only
from successful `try_init`). -/
def CacheOk (env : BuildEnv) (c : Caches) : Prop :=
  ∀ k b, Caches.get c k = some b → env.tryInit k = .ok b

/-- A successful blob read implies the blob file is present. -/
theorem read_blob_present {l : Layout} {dg : String} {b : Bytes}
    (h : read_blob l dg = .ok b) : l.blobs dg ≠ none := by
  unfold read_blob at h
  intro hn
  rw [hn] at h
  cases h

/-- A successful layer load implies every referenced layer blob is
present in the layout. -/
theorem loadLayers_blobs_present (l : Layout) :
    ∀ descs ls, loadLayers l descs = .ok ls →
      ∀ d ∈ descs, l.blobs d.digest ≠ none := by
  intro descs
  induction descs with
  | nil =>
    intro ls _ d hd
    cases hd
  | cons d0 rest ih =>
    intro ls h d hd
    simp only [loadLayers] at h
    cases hrb : read_blob l d0.digest with
    | error e =>
      rw [hrb] at h
      cases h
    | ok data =>
      rw [hrb] at h
      cases hrec : loadLayers l rest with
      | error e =>
        rw [hrec] at h
        cases h
      | ok ls' =>
        rcases List.mem_cons.mp hd with rfl | hd'
        · exact read_blob_present hrb
        · exact ih ls' hrec d hd'

/-- A successfully loaded image has all its layer blobs and its config
blob present in the layout. -/
theorem loadImage_blobs_present (l : Layout) (entry : IndexEntry) (img : Image)
    (h : loadImage l entry = .ok img) :
    (∀ d ∈ img.manifest.layers, l.blobs d.digest ≠ none) ∧
      l.blobs img.manifest.config.digest ≠ none := by
  unfold loadImage at h
  split at h
  · cases h
  · split at h
    · cases h
    · split at h
      · cases h
      · split at h
        · cases h
        · cases h
          exact ⟨loadLayers_blobs_present l _ _ (by assumption),
                 read_blob_present (by assumption)⟩

/-- Every image of a successful multi-image load has all referenced
blobs present. -/
theorem loadImages_blobs_present (l : Layout) :
    ∀ entries imgs, loadImages l entries = .ok imgs →
      ∀ img ∈ imgs, (∀ d ∈ img.manifest.layers, l.blobs d.digest ≠ none) ∧
        l.blobs img.manifest.config.digest ≠ none := by
  intro entries
  induction entries with
  | nil =>
    intro imgs h img hm
    simp only [loadImages] at h
    cases h
    cases hm
  | cons e rest ih =>
    intro imgs h img hm
    simp only [loadImages] at h
    cases h1 : loadImage l e with
    | error err => rw [h1] at h; cases h
    | ok img0 =>
      rw [h1] at h
      cases h2 : loadImages l rest with
      | error err => rw [h2] at h; cases h
      | ok imgs' =>
        rw [h2] at h
        cases h
        rcases List.mem_cons.mp hm with rfl | hm'
        · exact loadImage_blobs_present l e img h1
        · exact ih imgs' h2 img hm'

/-- C2 (amended): every blob a loaded image references (each layer and
the config) is physically present in the layout — a missing blob is a
hard load failure — but the loaded bytes are never checked against the
descriptor's size or digest, so corrupted blob contents load
successfully (see the counterexample). -/
theorem load_blobs_present (l : Layout) (imgs : List Image)
    (h : load_from_path l = .ok imgs) :
    ∀ img ∈ imgs, (∀ d ∈ img.manifest.layers, l.blobs d.digest ≠ none) ∧
      l.blobs img.manifest.config.digest ≠ none := by
  unfold load_from_path at h
  split at h
  · cases h
  · split at h
    · cases h
    · rename_i index hp
      exact loadImages_blobs_present l index.manifests imgs h

/-- C2 (counterexample): the corrupted example layout — whose layer
blob bytes have neither the declared size nor the declared digest —
loads successfully, carrying the corrupt bytes through, instead of
failing. -/
theorem load_accepts_corrupt_blob :
    load_from_path exLayout = .ok [exImage] ∧
    exImage.manifest.layers.map (fun d => (d.digest, d.size)) = [("sha256:1111", 3)] ∧
    exImage.layers.map (fun l => l.data) = [[65, 65, 65, 65]] ∧
    sha256_digest [65, 65, 65, 65] ≠ "sha256:1111" ∧
    ([65, 65, 65, 65] : Bytes).length ≠ 3 := by
  refine ⟨by decide, by decide, by decide, by decide, by decide⟩

/-- C2 (witness): the amended theorem applied to the example layout. -/
theorem load_blobs_present_witness :
    (∀ d ∈ exImage.manifest.layers, exLayout.blobs d.digest ≠ none) ∧
      exLayout.blobs exImage.manifest.config.digest ≠ none :=
  load_blobs_present exLayout [exImage] (by decide) exImage (by decide)

/-- C10: `Registry::push` unwraps the search for a descriptor whose
digest is the layer data's sha256; when the first layer's data digest
is not among the manifest's layer descriptors and the push is not
skipped, the call panics instead of returning an error.  Moreover
`load_from_path` does not establish this precondition: a layout exists
that loads successfully into an image violating it. -/
theorem push_unwrap_panics :
    (∀ (o : RegistryOracle) (image : Image) (l : ImageLayer)
        (rest : List ImageLayer) (r : Option String),
      image.layers = l :: rest →
      image.manifest.layers.find? (fun d => d.digest == sha256_digest l.data) = none →
      try_resolve_digest o = .ok r →
      r ≠ some image.digest →
      registryPush o image = (.panicked, [RegOp.storeAuth, RegOp.fetchDigest])) ∧
    (∃ (l : Layout) (img : Image) (ly : ImageLayer) (rest : List ImageLayer),
      load_from_path l = .ok [img] ∧ img.layers = ly :: rest ∧
      img.manifest.layers.find? (fun d => d.digest == sha256_digest ly.data) = none) := by
  constructor
  · intro o image l rest r hl hfind htr hne
    have hrest : pushRest o image = (.panicked, [RegOp.storeAuth, RegOp.fetchDigest]) := by
      unfold pushRest
      rw [hl]
      simp only [pushLayers, hfind]
      simp
    unfold registryPush
    rw [htr]
    cases r with
    | none => exact hrest
    | some d =>
      show (if d = image.digest
            then (PushOutcome.completed none, [RegOp.storeAuth, RegOp.fetchDigest])
            else pushRest o image) = (.panicked, [RegOp.storeAuth, RegOp.fetchDigest])
      rw [if_neg (fun hdd => hne (by rw [hdd])), hrest]
  · exact ⟨exLayout, exImage, exCorruptLayer, [], by decide, by decide, by decide⟩

/-- C10 (witness): pushing the corrupt example image against the fresh
registry panics. -/
theorem push_unwrap_panics_witness :
    registryPush exOracleFresh exImage = (.panicked, [RegOp.storeAuth, RegOp.fetchDigest]) :=
  push_unwrap_panics.1 exOracleFresh exImage exCorruptLayer [] none
    (by decide) (by decide) (by decide) (by decide)

/-- C3: when the remote digest fetched for the reference equals the
image's locally computed digest, `Registry::push` returns the skip
result `None` after only the auth association and the digest fetch —
zero blob probes, zero blob uploads, zero manifest uploads. -/
theorem push_skip_idempotent (o : RegistryOracle) (image : Image)
    (h : o.fetchManifestDigest = .ok image.digest) :
    registryPush o image = (.completed none, [RegOp.storeAuth, RegOp.fetchDigest]) ∧
    (∀ d, RegOp.pushBlob d ∉ (registryPush o image).2 ∧
          RegOp.probeBlob d ∉ (registryPush o image).2) ∧
    RegOp.pushManifest ∉ (registryPush o image).2 := by
  have h1 : registryPush o image = (.completed none, [RegOp.storeAuth, RegOp.fetchDigest]) := by
    unfold registryPush try_resolve_digest
    rw [h]
    simp
  refine ⟨h1, fun d => ?_, ?_⟩ <;> rw [h1] <;> simp

/-- C3 (witness): pushing the example image to the registry already
holding its digest is skipped with no transfer calls. -/
theorem push_skip_idempotent_witness :
    registryPush exOracleHeld exPushImage =
      (.completed none, [RegOp.storeAuth, RegOp.fetchDigest]) :=
  (push_skip_idempotent exOracleHeld exPushImage (by decide)).1

/-- C4: the manifest digest is sha256 over the canonical (key-sorted,
whitespace-free) JSON serialization of the parsed manifest, hence any
two on-disk encodings that parse to structurally equal manifests —
regardless of key ordering or incidental whitespace — yield the
identical digest string. -/
theorem digest_canonical (s1 s2 : String) (m1 m2 : OciImageManifest)
    (h1 : parseManifest s1 = some m1) (h2 : parseManifest s2 = some m2)
    (he : m1 = m2) :
    compute_digest m1 = compute_digest m2 ∧
    compute_digest m1 = "sha256:" ++ hexOf (sha256 (strBytes (manifestJson m1))) := by
  subst he
  exact ⟨rfl, rfl⟩

/-- A blob batch that completes performed, per event, only probes and
uploads of the image's layer digests, and probed every layer. -/
theorem pushLayers_done_ops (o : RegistryOracle) (descs : List OciDescriptor) :
    ∀ layers tr, pushLayers o descs layers = .done tr →
      (∀ op ∈ tr, ∃ l, l ∈ layers ∧
        (op = RegOp.probeBlob (sha256_digest l.data) ∨
         op = RegOp.pushBlob (sha256_digest l.data))) ∧
      (∀ l ∈ layers, RegOp.probeBlob (sha256_digest l.data) ∈ tr) := by
  intro layers
  induction layers with
  | nil =>
    intro tr h
    simp only [pushLayers] at h
    cases h
    exact ⟨fun op hop => absurd hop (List.not_mem_nil op),
           fun l hl => absurd hl (List.not_mem_nil l)⟩
  | cons l0 rest ih =>
    intro tr h
    simp only [pushLayers] at h
    split at h
    · cases h
    · split at h
      · split at h
        · rename_i tr' hrec
          cases h
          obtain ⟨ihops, ihprobe⟩ := ih tr' hrec
          constructor
          · intro op hop
            rcases List.mem_cons.mp hop with rfl | hop'
            · exact ⟨l0, List.mem_cons_self _ _, Or.inl rfl⟩
            · obtain ⟨l, hl, hor⟩ := ihops op hop'
              exact ⟨l, List.mem_cons_of_mem _ hl, hor⟩
          · intro l hl
            rcases List.mem_cons.mp hl with rfl | hl'
            · exact List.mem_cons_self _ _
            · exact List.mem_cons_of_mem _ (ihprobe l hl')
        · cases h
        · cases h
      · split at h
        · split at h
          · split at h
            · rename_i tr' hrec
              cases h
              obtain ⟨ihops, ihprobe⟩ := ih tr' hrec
              constructor
              · intro op hop
                rcases List.mem_cons.mp hop with rfl | hop'
                · exact ⟨l0, List.mem_cons_self _ _, Or.inl rfl⟩
                · rcases List.mem_cons.mp hop' with rfl | hop''
                  · exact ⟨l0, List.mem_cons_self _ _, Or.inr rfl⟩
                  · obtain ⟨l, hl, hor⟩ := ihops op hop''
                    exact ⟨l, List.mem_cons_of_mem _ hl, hor⟩
              · intro l hl
                rcases List.mem_cons.mp hl with rfl | hl'
                · exact List.mem_cons_self _ _
                · exact List.mem_cons_of_mem _
                    (List.mem_cons_of_mem _ (ihprobe l hl'))
            · cases h
            · cases h
          · cases h
        · cases h
      · cases h

/-- The tail of a push that returns the pushed result emitted the
batch, then the config push, then the manifest push, in that order. -/
theorem pushRest_order (o : RegistryOracle) (image : Image) (r : PushResponse)
    (tr : List RegOp) (h : pushRest o image = (.completed (some r), tr)) :
    ∃ batch, tr = [RegOp.storeAuth, RegOp.fetchDigest] ++ batch ++
        [RegOp.pushBlob image.manifest.config.digest, RegOp.pushManifest] ∧
      (∀ op ∈ batch, ∃ l, l ∈ image.layers ∧
        (op = RegOp.probeBlob (sha256_digest l.data) ∨
         op = RegOp.pushBlob (sha256_digest l.data))) ∧
      (∀ l ∈ image.layers, RegOp.probeBlob (sha256_digest l.data) ∈ batch) := by
  simp only [pushRest] at h
  split at h
  · simp at h
  · simp at h
  · rename_i tr' hbatch
    split at h
    · simp at h
    · split at h
      · simp at h
      · rw [Prod.mk.injEq] at h
        obtain ⟨h1, h2⟩ := h
        subst h2
        obtain ⟨hops, hprobe⟩ := pushLayers_done_ops o image.manifest.layers
          image.layers tr' hbatch
        exact ⟨tr', rfl, hops, hprobe⟩

/-- C6: when a push is not skipped and completes, the config blob push
happens unconditionally and the manifest push is strictly the last
call, after every layer of the image has been probed (and possibly
uploaded) and the config blob pushed; every batch operation concerns a
layer digest. -/
theorem push_order (o : RegistryOracle) (image : Image) (r : PushResponse)
    (tr : List RegOp) (h : registryPush o image = (.completed (some r), tr)) :
    ∃ batch, tr = [RegOp.storeAuth, RegOp.fetchDigest] ++ batch ++
        [RegOp.pushBlob image.manifest.config.digest, RegOp.pushManifest] ∧
      (∀ op ∈ batch, ∃ l, l ∈ image.layers ∧
        (op = RegOp.probeBlob (sha256_digest l.data) ∨
         op = RegOp.pushBlob (sha256_digest l.data))) ∧
      (∀ l ∈ image.layers, RegOp.probeBlob (sha256_digest l.data) ∈ batch) := by
  unfold registryPush at h
  split at h
  · simp at h
  · split at h
    · simp at h
    · exact pushRest_order o image r tr h
  · exact pushRest_order o image r tr h

/-- C6 (witness): the full push of the example image against the fresh
registry, with its trace decomposed as the theorem states. -/
theorem push_order_witness :
    registryPush exOracleFresh exPushImage = (.completed (some ⟨"u", "m"⟩), exPushTrace) ∧
    ∃ batch, exPushTrace = [RegOp.storeAuth, RegOp.fetchDigest] ++ batch ++
        [RegOp.pushBlob exPushImage.manifest.config.digest, RegOp.pushManifest] ∧
      (∀ op ∈ batch, ∃ l, l ∈ exPushImage.layers ∧
        (op = RegOp.probeBlob (sha256_digest l.data) ∨
         op = RegOp.pushBlob (sha256_digest l.data))) ∧
      (∀ l ∈ exPushImage.layers, RegOp.probeBlob (sha256_digest l.data) ∈ batch) :=
  ⟨by decide, push_order exOracleFresh exPushImage ⟨"u", "m"⟩ exPushTrace (by decide)⟩

/-- C7: negative registry responses are control flow, not errors — the
digest fetch's "manifest not found" and "manifest unknown" responses
resolve to `None`, a found digest to `Some`, any other fetch failure
propagates and fails the push; on the per-layer probe, success skips
the upload, a 404 server error triggers the blob push, and any other
probe or upload failure fails the batch and hence that image's push. -/
theorem negative_responses_control_flow :
    (∀ o : RegistryOracle, o.fetchManifestDigest = .error .imageManifestNotFound →
      try_resolve_digest o = .ok none) ∧
    (∀ (o : RegistryOracle) (errs : List OciErrorCode),
      o.fetchManifestDigest = .error (.registryError errs) →
      errs.head? = some .manifestUnknown →
      try_resolve_digest o = .ok none) ∧
    (∀ (o : RegistryOracle) (d : String), o.fetchManifestDigest = .ok d →
      try_resolve_digest o = .ok (some d)) ∧
    (∀ (o : RegistryOracle) (e : OciDistributionError),
      o.fetchManifestDigest = .error e →
      e ≠ .imageManifestNotFound →
      (∀ errs, e = .registryError errs → errs.head? ≠ some .manifestUnknown) →
      try_resolve_digest o = .error e) ∧
    (∀ (o : RegistryOracle) (image : Image) (e : OciDistributionError),
      try_resolve_digest o = .error e →
      registryPush o image = (.failed (.oci e), [RegOp.storeAuth, RegOp.fetchDigest])) ∧
    (∀ (o : RegistryOracle) (descs : List OciDescriptor) (l : ImageLayer)
        (desc : OciDescriptor),
      descs.find? (fun d => d.digest == sha256_digest l.data) = some desc →
      (o.pullBlobChunk desc.digest = .ok () →
        pushLayers o descs [l] = .done [RegOp.probeBlob (sha256_digest l.data)]) ∧
      (∀ u, o.pullBlobChunk desc.digest = .error (.serverError 404) →
        o.pushBlobOp (sha256_digest l.data) = .ok u →
        pushLayers o descs [l] =
          .done [RegOp.probeBlob (sha256_digest l.data),
                 RegOp.pushBlob (sha256_digest l.data)]) ∧
      (∀ e, o.pullBlobChunk desc.digest = .error (.serverError 404) →
        o.pushBlobOp (sha256_digest l.data) = .error e →
        pushLayers o descs [l] =
          .failed e [RegOp.probeBlob (sha256_digest l.data),
                     RegOp.pushBlob (sha256_digest l.data)]) ∧
      (∀ e, o.pullBlobChunk desc.digest = .error e →
        (∀ code, e = .serverError code → code ≠ 404) →
        pushLayers o descs [l] = .failed e [RegOp.probeBlob (sha256_digest l.data)])) ∧
    (∀ (o : RegistryOracle) (image : Image) (e : OciDistributionError) (tr : List RegOp),
      pushLayers o image.manifest.layers image.layers = .failed e tr →
      pushRest o image = (.failed (.oci e), [RegOp.storeAuth, RegOp.fetchDigest] ++ tr)) := by
  refine ⟨?_, ?_, ?_, ?_, ?_, ?_, ?_⟩
  · intro o h
    unfold try_resolve_digest
    rw [h]
  · intro o errs h hhead
    unfold try_resolve_digest
    rw [h]
    show (if errs.head? = some OciErrorCode.manifestUnknown
          then Except.ok none
          else Except.error (OciDistributionError.registryError errs)) =
         Except.ok (none : Option String)
    rw [if_pos hhead]
  · intro o d h
    unfold try_resolve_digest
    rw [h]
  · intro o e h hnf hmu
    unfold try_resolve_digest
    rw [h]
    cases e with
    | imageManifestNotFound => exact absurd rfl hnf
    | registryError errs =>
      show (if errs.head? = some OciErrorCode.manifestUnknown
            then Except.ok (none : Option String)
            else Except.error (OciDistributionError.registryError errs)) =
           Except.error (OciDistributionError.registryError errs)
      rw [if_neg (hmu errs rfl)]
    | serverError code => rfl
    | otherError => rfl
  · intro o image e htr
    unfold registryPush
    rw [htr]
  · intro o descs l desc hfind
    refine ⟨?_, ?_, ?_, ?_⟩
    · intro hok
      simp only [pushLayers, hfind, hok]
    · intro u h404 hup
      simp only [pushLayers, hfind, h404, hup]
      simp
    · intro e h404 hup
      simp only [pushLayers, hfind, h404, hup]
      simp
    · intro e herr hns
      cases e with
      | imageManifestNotFound => simp only [pushLayers, hfind, herr]
      | registryError errs => simp only [pushLayers, hfind, herr]
      | serverError code =>
        simp only [pushLayers, hfind, herr]
        rw [if_neg (hns code rfl)]
      | otherError => simp only [pushLayers, hfind, herr]
  · intro o image e tr hbatch
    simp only [pushRest, hbatch]

/-- C7 (witness): the theorem instantiated across concrete registries:
not-found and manifest-unknown fetches resolve to `None`, a held
digest to `Some`, a fatal fetch fails the push; a successful probe
skips the upload, a 404 probe triggers it, a failing upload or a
non-404 probe failure fails the batch and the push tail. -/
theorem negative_responses_control_flow_witness :
    try_resolve_digest exOracleFresh = .ok none ∧
    try_resolve_digest exOracleUnknown = .ok none ∧
    try_resolve_digest exOracleHeld = .ok (some "sha256:dd") ∧
    try_resolve_digest exOracleFatal = .error .otherError ∧
    registryPush exOracleFatal exPushImage =
      (.failed (.oci .otherError), [RegOp.storeAuth, RegOp.fetchDigest]) ∧
    pushLayers exOracleBlobsPresent exPushManifest.layers [exPushLayer] =
      .done [RegOp.probeBlob (sha256_digest exPushLayer.data)] ∧
    pushLayers exOracleFresh exPushManifest.layers [exPushLayer] =
      .done [RegOp.probeBlob (sha256_digest exPushLayer.data),
             RegOp.pushBlob (sha256_digest exPushLayer.data)] ∧
    pushLayers exOracleUploadFails exPushManifest.layers [exPushLayer] =
      .failed .otherError [RegOp.probeBlob (sha256_digest exPushLayer.data),
                           RegOp.pushBlob (sha256_digest exPushLayer.data)] ∧
    pushLayers exOracleProbeFails exPushManifest.layers [exPushLayer] =
      .failed .otherError [RegOp.probeBlob (sha256_digest exPushLayer.data)] ∧
    pushRest exOracleProbeFails exPushImage =
      (.failed (.oci .otherError), [RegOp.storeAuth, RegOp.fetchDigest] ++
        [RegOp.probeBlob (sha256_digest exPushLayer.data)]) :=
  ⟨negative_responses_control_flow.1 exOracleFresh rfl,
   negative_responses_control_flow.2.1 exOracleUnknown [.manifestUnknown] rfl rfl,
   negative_responses_control_flow.2.2.1 exOracleHeld "sha256:dd" rfl,
   negative_responses_control_flow.2.2.2.1 exOracleFatal .otherError rfl
     (by decide) (fun errs herr => by cases herr),
   negative_responses_control_flow.2.2.2.2.1 exOracleFatal exPushImage .otherError
     (negative_responses_control_flow.2.2.2.1 exOracleFatal .otherError rfl
       (by decide) (fun errs herr => by cases herr)),
   (negative_responses_control_flow.2.2.2.2.2.1 exOracleBlobsPresent
     exPushManifest.layers exPushLayer exPushDesc (by decide)).1 rfl,
   (negative_responses_control_flow.2.2.2.2.2.1 exOracleFresh
     exPushManifest.layers exPushLayer exPushDesc (by decide)).2.1 "u" rfl rfl,
   (negative_responses_control_flow.2.2.2.2.2.1 exOracleUploadFails
     exPushManifest.layers exPushLayer exPushDesc (by decide)).2.2.1 .otherError rfl rfl,
   (negative_responses_control_flow.2.2.2.2.2.1 exOracleProbeFails
     exPushManifest.layers exPushLayer exPushDesc (by decide)).2.2.2 .otherError rfl
     (fun code hc => by cases hc),
   negative_responses_control_flow.2.2.2.2.2.2 exOracleProbeFails exPushImage
     .otherError [RegOp.probeBlob (sha256_digest exPushLayer.data)] (by decide)⟩

/-- C4 (witness): two genuinely different encodings — one spaced with
one key order, one compact with another — parse to the same manifest
and receive the identical digest. -/
theorem digest_canonical_witness :
    exEncSpaced ≠ exEncReordered ∧
    parseManifest exEncSpaced = some exEncManifest ∧
    parseManifest exEncReordered = some exEncManifest ∧
    compute_digest exEncManifest = compute_digest exEncManifest :=
  ⟨by decide, by decide, by decide,
   (digest_canonical exEncSpaced exEncReordered exEncManifest exEncManifest
      (by decide) (by decide) rfl).1⟩

/-- A single batch step keeps the in-flight count within the cap. -/
theorem batchStep_inflight {s s' : BatchState} {e : BatchEvent}
    (h : BatchStep s e s') (hle : s.inflight ≤ 16) : s'.inflight ≤ 16 := by
  cases h with
  | start p i hp hi => exact hi
  | finishOk p i f hi => exact le_trans (Nat.sub_le i 1) hle
  | finishErr p i f hi => exact le_trans (Nat.sub_le i 1) hle

/-- A failed batch stays failed. -/
theorem batchStep_failed_persists {s s' : BatchState} {e : BatchEvent}
    (h : BatchStep s e s') (hf : s.failed = true) : s'.failed = true := by
  cases h with
  | start p i hp hi => cases hf
  | finishOk p i f hi => exact hf
  | finishErr p i f hi => rfl

/-- A start step only fires while no failure has been observed. -/
theorem batchStep_start_not_failed {s s' : BatchState}
    (h : BatchStep s .start s') : s.failed = false := by
  cases h
  rfl

/-- Executions preserve the in-flight cap. -/
theorem batchExec_inflight : ∀ {s tr s'}, BatchExec s tr s' →
    s.inflight ≤ 16 → s'.inflight ≤ 16 := by
  intro s tr s' h
  induction h with
  | nil => exact id
  | cons hstep hexec ih => intro hle; exact ih (batchStep_inflight hstep hle)

/-- No blob operation starts in any execution from a failed state. -/
theorem batchExec_no_start_after_failed {s tr s'} (h : BatchExec s tr s') :
    s.failed = true → BatchEvent.start ∉ tr := by
  induction h with
  | nil => intro _; exact List.not_mem_nil _
  | cons hstep hexec ih =>
    intro hf hmem
    rcases List.mem_cons.mp hmem with heq | hmem'
    · rw [← heq] at hstep
      rw [batchStep_start_not_failed hstep] at hf
      cases hf
    · exact ih (batchStep_failed_persists hstep hf) hmem'

/-- C5: in any schedule of one image's blob batch under
`buffer_unordered(16)` with `try_for_each`, the number of in-flight
blob operations never exceeds 16, and once a blob operation has failed
no further blob operation is started. -/
theorem blob_batch_bounded (n : Nat) (tr : List BatchEvent) (s : BatchState)
    (h : BatchExec (batchInit n) tr s) :
    s.inflight ≤ 16 ∧
    (s.failed = true → ∀ (tr' : List BatchEvent) (s' : BatchState),
      BatchExec s tr' s' → BatchEvent.start ∉ tr') :=
  ⟨batchExec_inflight h (Nat.zero_le 16),
   fun hf tr' s' h' => batchExec_no_start_after_failed h' hf⟩

/-- C5 (witness): a two-event schedule of a one-blob batch that starts
the blob and sees it fail, with the cap conclusion instantiated. -/
theorem blob_batch_bounded_witness :
    BatchExec (batchInit 1) [BatchEvent.start, BatchEvent.finishErr] ⟨0, 0, true⟩ ∧
    BatchState.inflight ⟨0, 0, true⟩ ≤ 16 := by
  have hexec : BatchExec (batchInit 1) [BatchEvent.start, BatchEvent.finishErr]
      ⟨0, 0, true⟩ :=
    BatchExec.cons (BatchStep.start 1 0 (by decide) (by decide))
      (BatchExec.cons (BatchStep.finishErr 0 1 false (by decide)) (BatchExec.nil _))
  exact ⟨hexec, (blob_batch_bounded 1 _ _ hexec).1⟩

/-- Replacement binding found: looking up the replaced key in a mapped
association list yields the new value. -/
theorem hmLookup_replace_hit (k : String) (v : α) :
    ∀ m : List (String × α), hmContains m k = true →
      hmLookup k (m.map (fun kv => if kv.1 == k then (k, v) else kv)) = some v := by
  intro m
  induction m with
  | nil => intro hc; simp [hmContains] at hc
  | cons kv rest ih =>
    intro hc
    by_cases hk : kv.1 = k
    · simp [hmLookup, hk]
    · have hc' : hmContains rest k = true := by
        simp [hmContains, hk] at hc
        simpa [hmContains] using hc
      simp [hmLookup, hk]
      simpa using ih hc'

/-- Replacing a different key leaves a lookup unchanged. -/
theorem hmLookup_replace_other {k' : String} (k : String) (v : α) (hk : k' ≠ k) :
    ∀ m : List (String × α),
      hmLookup k (m.map (fun kv => if kv.1 == k' then (k', v) else kv)) =
        hmLookup k m := by
  intro m
  induction m with
  | nil => rfl
  | cons kv rest ih =>
    have hk2 : ¬(k = k') := fun h => hk h.symm
    by_cases hh : kv.1 = k'
    · simp [hmLookup, hh, hk, hk2]
      simpa using ih
    · by_cases hkk : kv.1 = k
      · simp [hmLookup, hh, hkk, hk2]
      · simp [hmLookup, hh, hkk]
        simpa using ih

/-- Lookup distributes over append. -/
theorem hmLookup_append (k : String) :
    ∀ m m' : List (String × α), hmLookup k (m ++ m') =
      match hmLookup k m with
      | some v => some v
      | none => hmLookup k m' := by
  intro m m'
  induction m with
  | nil => rfl
  | cons kv rest ih =>
    by_cases hk : kv.1 = k
    · simp [hmLookup, hk]
    · simp [hmLookup, hk, ih]

/-- An uncontained key looks up to nothing. -/
theorem hmLookup_of_not_contains (k : String) :
    ∀ m : List (String × α), hmContains m k = false → hmLookup k m = none := by
  intro m
  induction m with
  | nil => intro _; rfl
  | cons kv rest ih =>
    intro hc
    simp [hmContains] at hc
    obtain ⟨h1, h2⟩ := hc
    simp [hmLookup, h1]
    exact ih (by simpa [hmContains] using h2)

/-- Inserting a key makes it look up to the inserted value. -/
theorem hmLookup_insert_self (k : String) (v : α) (m : List (String × α)) :
    hmLookup k (hmInsert m k v) = some v := by
  unfold hmInsert
  by_cases hc : hmContains m k = true
  · rw [if_pos hc]
    exact hmLookup_replace_hit k v m hc
  · rw [if_neg hc]
    rw [hmLookup_append]
    rw [hmLookup_of_not_contains k m (Bool.not_eq_true _ ▸ hc)]
    simp [hmLookup]

/-- Inserting one key leaves other lookups unchanged. -/
theorem hmLookup_insert_other {k' : String} (k : String) (v : α)
    (m : List (String × α)) (hk : k' ≠ k) :
    hmLookup k (hmInsert m k' v) = hmLookup k m := by
  unfold hmInsert
  by_cases hc : hmContains m k' = true
  · rw [if_pos hc]
    exact hmLookup_replace_other k v hk m
  · rw [if_neg hc]
    rw [hmLookup_append]
    cases h : hmLookup k m with
    | some w => rfl
    | none => simp [hmLookup, hk]

/-- Folding inserts whose keys all differ from `k` leaves `k`'s lookup
unchanged. -/
theorem hmLookup_foldl_insert_not_mem (k : String) :
    ∀ (l : List (String × α)) (m : List (String × α)),
      (∀ kv ∈ l, kv.1 ≠ k) →
      hmLookup k (l.foldl (fun acc kv => hmInsert acc kv.1 kv.2) m) = hmLookup k m := by
  intro l
  induction l with
  | nil => intro m _; rfl
  | cons kv rest ih =>
    intro m hne
    rw [List.foldl_cons]
    rw [ih (hmInsert m kv.1 kv.2) (fun kv' h' => hne kv' (List.mem_cons_of_mem _ h'))]
    exact hmLookup_insert_other k kv.2 m (hne kv (List.mem_cons_self _ _))

/-- Folding inserts of a key-nodup list makes each of its bindings the
final lookup result. -/
theorem hmLookup_foldl_insert_mem (k : String) (v : α) :
    ∀ (l : List (String × α)) (m : List (String × α)),
      (l.map Prod.fst).Nodup → (k, v) ∈ l →
      hmLookup k (l.foldl (fun acc kv => hmInsert acc kv.1 kv.2) m) = some v := by
  intro l
  induction l with
  | nil => intro m _ hmem; cases hmem
  | cons kv rest ih =>
    intro m hnd hmem
    rw [List.foldl_cons]
    rw [List.map_cons, List.nodup_cons] at hnd
    rcases List.mem_cons.mp hmem with heq | hmem'
    · have hkey : kv.1 = k := by rw [← heq]
      have hnotin : ∀ kv' ∈ rest, kv'.1 ≠ k := by
        intro kv' h' hk'
        have hmm2 : kv.1 ∈ rest.map Prod.fst := by
          rw [hkey, ← hk']
          exact List.mem_map_of_mem Prod.fst h'
        exact hnd.1 hmm2
      rw [hmLookup_foldl_insert_not_mem k rest (hmInsert m kv.1 kv.2) hnotin, ← heq]
      exact hmLookup_insert_self k v m
    · exact ih (hmInsert m kv.1 kv.2) hnd.2 hmem'

/-- A successful lookup is a binding of the list. -/
theorem hmLookup_mem (k : String) (v : α) :
    ∀ m : List (String × α), hmLookup k m = some v → (k, v) ∈ m := by
  intro m
  induction m with
  | nil => intro h; cases h
  | cons kv rest ih =>
    intro h
    by_cases hk : kv.1 = k
    · simp [hmLookup, hk] at h
      exact List.mem_cons.mpr (Or.inl (by rw [← hk, ← h]))
    · simp [hmLookup, hk] at h
      exact List.mem_cons_of_mem _ (ih h)

/-- A failed lookup means no binding carries the key. -/
theorem hmLookup_none_keys (k : String) :
    ∀ m : List (String × α), hmLookup k m = none → ∀ kv ∈ m, kv.1 ≠ k := by
  intro m
  induction m with
  | nil => intro _ kv hkv; cases hkv
  | cons kv0 rest ih =>
    intro h kv hkv
    by_cases hk : kv0.1 = k
    · simp [hmLookup, hk] at h
    · rcases List.mem_cons.mp hkv with heq | hmem'
      · rw [heq]; exact hk
      · exact ih (by simpa [hmLookup, hk] using h) kv hmem'

/-- Full characterization of a merge's lookups: the later output wins
where it binds a key, the earlier survives elsewhere. -/
theorem merge_lookup (a b : Output) (hb : (b.artifacts.map Prod.fst).Nodup)
    (k : String) :
    hmLookup k (a.merge b).artifacts =
      match hmLookup k b.artifacts with
      | some v => some v
      | none => hmLookup k a.artifacts := by
  cases h : hmLookup k b.artifacts with
  | some v =>
    exact hmLookup_foldl_insert_mem k v b.artifacts a.artifacts hb (hmLookup_mem k v b.artifacts h)
  | none =>
    exact hmLookup_foldl_insert_not_mem k b.artifacts a.artifacts (hmLookup_none_keys k b.artifacts h)

/-- C8: `Output::merge` is last-writer-wins at artifact-name
granularity — a key bound by the later output takes its value, any
other key keeps the earlier output's value — and for outputs with
disjoint artifact-name sets the merged map is exactly their union,
identical regardless of which output arrived first. -/
theorem merge_semantics (a b : Output)
    (ha : (a.artifacts.map Prod.fst).Nodup)
    (hb : (b.artifacts.map Prod.fst).Nodup) :
    (∀ k, hmLookup k (a.merge b).artifacts =
      match hmLookup k b.artifacts with
      | some v => some v
      | none => hmLookup k a.artifacts) ∧
    ((∀ kv ∈ a.artifacts, hmContains b.artifacts kv.1 = false) →
      ∀ k, hmLookup k (a.merge b).artifacts = hmLookup k (b.merge a).artifacts) ∧
    (∀ k v, hmLookup k b.artifacts = some v →
      hmLookup k (a.merge b).artifacts = some v) := by
  refine ⟨merge_lookup a b hb, ?_, ?_⟩
  · intro hdisj k
    rw [merge_lookup a b hb k, merge_lookup b a ha k]
    cases hA : hmLookup k a.artifacts with
    | some v =>
      have hbnone : hmLookup k b.artifacts = none := by
        have hmem := hmLookup_mem k v a.artifacts hA
        exact hmLookup_of_not_contains k b.artifacts (hdisj (k, v) hmem)
      rw [hbnone]
    | none =>
      cases hB : hmLookup k b.artifacts with
      | some w => rfl
      | none => rfl
  · intro k v h
    rw [merge_lookup a b hb k, h]

/-- C8 (witness): disjoint outputs merge order-independently, and a
shared artifact name takes the later output's list. -/
theorem merge_semantics_witness :
    hmLookup "x" ((exOutA.merge exOutB).artifacts) =
      hmLookup "x" ((exOutB.merge exOutA).artifacts) ∧
    hmLookup "x" ((exOutA.merge exOutX).artifacts) = some [exPushImage] :=
  ⟨(merge_semantics exOutA exOutB (by decide) (by decide)).2.1 (by decide) "x",
   (merge_semantics exOutA exOutX (by decide) (by decide)).2.2 "x" [exPushImage]
     (by decide)⟩

/-- Writing one kind's cache field reads back as written for that kind
and unchanged for the others. -/
theorem caches_get_set (c : Caches) (k' k : Kind) (v : Option Nat) :
    Caches.get (Caches.set c k' v) k = if k' = k then v else Caches.get c k := by
  cases k' <;> cases k <;> simp [Caches.get, Caches.set]

/-- Init-call counting distributes over trace concatenation. -/
theorem countInit_append (k : Kind) :
    ∀ l1 l2, countInit k (l1 ++ l2) = countInit k l1 + countInit k l2 := by
  intro l1 l2
  induction l1 with
  | nil => simp [countInit]
  | cons e rest ih =>
    cases e with
    | initCalled k' => simp [countInit, ih, Nat.add_assoc]
    | spawned n => simp [countInit, ih]

/-- Over any service list, a kind's `try_init` is called at most once
when its cache starts empty and never when it starts filled. -/
theorem spawnPhase_initCount (env : BuildEnv) (k : Kind) :
    ∀ (svcs : List Service) (c : Caches),
      countInit k (spawnPhase env svcs c).2 ≤
        (if Caches.get c k = none then 1 else 0) := by
  intro svcs
  induction svcs with
  | nil => intro c; exact Nat.zero_le _
  | cons s rest ih =>
    intro c
    cases hc : Caches.get c s.build with
    | some b =>
      have ihb := ih (Caches.set c s.build (some b))
      rw [caches_get_set] at ihb
      cases hrec : (spawnPhase env rest (Caches.set c s.build (some b))).1 with
      | ok p =>
        simp only [spawnPhase, run_builder, hc, hrec, List.nil_append, countInit]
        by_cases hk : s.build = k
        · subst hk
          simp at ihb
          rw [hc]
          simp [ihb]
        · rw [if_neg hk] at ihb
          exact ihb
      | error e =>
        simp only [spawnPhase, run_builder, hc, hrec, List.nil_append, countInit]
        by_cases hk : s.build = k
        · subst hk
          simp at ihb
          rw [hc]
          simp [ihb]
        · rw [if_neg hk] at ihb
          exact ihb
    | none =>
      cases hinit : env.tryInit s.build with
      | error e =>
        simp only [spawnPhase, run_builder, hc, hinit, countInit]
        by_cases hk : s.build = k
        · subst hk
          rw [hc]
          simp
        · rw [if_neg hk]
          simpa using Nat.zero_le _
      | ok b =>
        have ihb := ih (Caches.set c s.build (some b))
        rw [caches_get_set] at ihb
        cases hrec : (spawnPhase env rest (Caches.set c s.build (some b))).1 with
        | ok p =>
          simp only [spawnPhase, run_builder, hc, hinit, hrec, countInit]
          by_cases hk : s.build = k
          · subst hk
            simp at ihb
            rw [hc]
            simp [ihb]
          · rw [if_neg hk] at ihb
            rw [if_neg hk]
            simpa using ihb
        | error e =>
          simp only [spawnPhase, run_builder, hc, hinit, hrec, countInit]
          by_cases hk : s.build = k
          · subst hk
            simp at ihb
            rw [hc]
            simp [ihb]
          · rw [if_neg hk] at ihb
            rw [if_neg hk]
            simpa using ihb

/-- Cache soundness is preserved by caching a successful init. -/
theorem cacheOk_set (env : BuildEnv) (c : Caches) (k' : Kind) (b : Nat)
    (hcok : CacheOk env c) (hb : env.tryInit k' = .ok b) :
    CacheOk env (Caches.set c k' (some b)) := by
  intro k bb hget
  rw [caches_get_set] at hget
  by_cases hkk : k' = k
  · rw [if_pos hkk] at hget
    cases hget
    rw [← hkk]
    exact hb
  · rw [if_neg hkk] at hget
    exact hcok k bb hget

/-- When every service before a target can initialize but the target's
kind cannot, the spawn loop errors with that init failure, and exactly
the earlier services were spawned. -/
theorem spawnPhase_init_failure (env : BuildEnv) (s : Service) (e : Nat)
    (hfail : env.tryInit s.build = .error e) :
    ∀ (pre : List Service) (post : List Service) (c : Caches), CacheOk env c →
      (∀ s' ∈ pre, ∃ b, env.tryInit s'.build = .ok b) →
      (spawnPhase env (pre ++ s :: post) c).1 = .error (wrapErr s.build e) ∧
      spawnedNames (spawnPhase env (pre ++ s :: post) c).2 = pre.map Service.name := by
  intro pre
  induction pre with
  | nil =>
    intro post c hcok hpre
    have hc : Caches.get c s.build = none := by
      cases hcget : Caches.get c s.build with
      | none => rfl
      | some b =>
        have hob := hcok s.build b hcget
        rw [hfail] at hob
        cases hob
    refine ⟨?_, ?_⟩
    · simp [List.nil_append, spawnPhase, run_builder, hc, hfail]
    · simp [List.nil_append, spawnPhase, run_builder, hc, hfail, spawnedNames]
  | cons s0 pre' ih =>
    intro post c hcok hpre
    obtain ⟨b0, hb0⟩ := hpre s0 (List.mem_cons_self _ _)
    cases hc : Caches.get c s0.build with
    | some b =>
      have hcok2 : CacheOk env (Caches.set c s0.build (some b)) :=
        cacheOk_set env c s0.build b hcok (hcok s0.build b hc)
      obtain ⟨h1, h2⟩ := ih post (Caches.set c s0.build (some b)) hcok2
        (fun s' h' => hpre s' (List.mem_cons_of_mem _ h'))
      cases hrec : (spawnPhase env (pre' ++ s :: post) (Caches.set c s0.build (some b))).1 with
      | ok p =>
        rw [hrec] at h1
        cases h1
      | error e2 =>
        rw [hrec] at h1
        cases h1
        refine ⟨?_, ?_⟩
        · simp [List.cons_append, spawnPhase, run_builder, hc, hrec]
        · simp only [List.cons_append, spawnPhase, run_builder, hc, List.append_eq, hrec,
            List.nil_append, spawnedNames, List.filterMap_cons, List.map_cons]
          simpa [spawnedNames] using h2
    | none =>
      have hcok2 : CacheOk env (Caches.set c s0.build (some b0)) :=
        cacheOk_set env c s0.build b0 hcok hb0
      obtain ⟨h1, h2⟩ := ih post (Caches.set c s0.build (some b0)) hcok2
        (fun s' h' => hpre s' (List.mem_cons_of_mem _ h'))
      cases hrec : (spawnPhase env (pre' ++ s :: post) (Caches.set c s0.build (some b0))).1 with
      | ok p =>
        rw [hrec] at h1
        cases h1
      | error e2 =>
        rw [hrec] at h1
        cases h1
        refine ⟨?_, ?_⟩
        · simp [List.cons_append, spawnPhase, run_builder, hc, hb0, hrec]
        · simp only [List.cons_append, spawnPhase, run_builder, hc, hb0, List.append_eq, hrec,
            spawnedNames, List.filterMap_cons, List.map_cons]
          simpa [spawnedNames] using h2

/-- C9: across one dispatcher run, each backend kind's `try_init` is
called at most once (later targets of the same kind reuse the cached
clone), and an init failure terminates the spawn loop immediately with
that error: exactly the services before the failing one were
dispatched, none after. -/
theorem init_once_and_fail_fast :
    (∀ (env : BuildEnv) (svcs : List Service) (k : Kind),
      countInit k (spawnPhase env svcs emptyCaches).2 ≤ 1) ∧
    (∀ (env : BuildEnv) (pre post : List Service) (s : Service) (e : Nat),
      env.tryInit s.build = .error e →
      (∀ s' ∈ pre, ∃ b, env.tryInit s'.build = .ok b) →
      (spawnPhase env (pre ++ s :: post) emptyCaches).1 = .error (wrapErr s.build e) ∧
      spawnedNames (spawnPhase env (pre ++ s :: post) emptyCaches).2 =
        pre.map Service.name) := by
  constructor
  · intro env svcs k
    have h := spawnPhase_initCount env k svcs emptyCaches
    have hz : Caches.get emptyCaches k = none := by cases k <;> rfl
    rw [hz] at h
    simpa using h
  · intro env pre post s e hfail hpre
    exact spawnPhase_init_failure env s e hfail pre post emptyCaches
      (fun k b hk => by cases k <;> cases hk) hpre

/-- C9 (witness): the failing docker init in the middle of three
services stops the run with that error after spawning only the first
service, and docker's init was attempted exactly once. -/
theorem init_once_and_fail_fast_witness :
    countInit Kind.docker (spawnPhase exEnvInitFails exSvcsInit emptyCaches).2 ≤ 1 ∧
    (spawnPhase exEnvInitFails exSvcsInit emptyCaches).1 =
      .error (wrapErr Kind.docker 7) ∧
    spawnedNames (spawnPhase exEnvInitFails exSvcsInit emptyCaches).2 = ["a"] := by
  have h2 := init_once_and_fail_fast.2 exEnvInitFails [⟨"a", .ko⟩] [⟨"c", .ko⟩]
    ⟨"b", .docker⟩ 7 rfl
    (fun s' h' => by
      rcases List.mem_cons.mp h' with heq | h0
      · exact ⟨0, by subst heq; rfl⟩
      · cases h0)
  exact ⟨init_once_and_fail_fast.1 exEnvInitFails exSvcsInit Kind.docker, h2.1, h2.2⟩

/-- Joining all-successful results merges them in completion order. -/
theorem joinAll_all_ok : ∀ (outs : List Output) (acc : Output),
    joinAll acc (outs.map Except.ok) = .ok (outs.foldl Output.merge acc) := by
  intro outs
  induction outs with
  | nil => intro acc; rfl
  | cons o rest ih => intro acc; exact ih (acc.merge o)

/-- Joining stops at the first error in completion order. -/
theorem joinAll_first_error :
    ∀ (pres : List Output) (acc : Output) (e : BuildError)
      (rest : List (Except BuildError Output)),
      joinAll acc (pres.map Except.ok ++ .error e :: rest) = .error e := by
  intro pres
  induction pres with
  | nil => intro acc e rest; rfl
  | cons o pres' ih => intro acc e rest; exact ih (acc.merge o) e rest

/-- C1 (amended): the join loop of `MetaBuild::build` merges results in
completion order and, at the first failed task in completion order,
returns that one target's error immediately — later results, including
other failures, are discarded; only when every task succeeds does it
return the merge of all outputs. -/
theorem dispatcher_first_failure :
    (∀ (env : BuildEnv) (svcs : List Service) (order : List (String × Kind))
       (c : Caches) (tasks : List (String × Kind)) (outs : List Output),
      (spawnPhase env svcs emptyCaches).1 = .ok (c, tasks) →
      order.map (taskResult env) = outs.map Except.ok →
      metaBuild env svcs order = .ok (outs.foldl Output.merge ⟨[]⟩)) ∧
    (∀ (env : BuildEnv) (svcs : List Service)
       (order pre : List (String × Kind)) (t : String × Kind)
       (post : List (String × Kind)) (c : Caches) (tasks : List (String × Kind))
       (outs : List Output) (e : BuildError),
      (spawnPhase env svcs emptyCaches).1 = .ok (c, tasks) →
      order = pre ++ t :: post →
      pre.map (taskResult env) = outs.map Except.ok →
      taskResult env t = .error e →
      metaBuild env svcs order = .error e) := by
  constructor
  · intro env svcs order c tasks outs hspawn hmap
    unfold metaBuild
    rw [hspawn]
    show joinAll ⟨[]⟩ (order.map (taskResult env)) = .ok (outs.foldl Output.merge ⟨[]⟩)
    rw [hmap]
    exact joinAll_all_ok outs ⟨[]⟩
  · intro env svcs order pre t post c tasks outs e hspawn horder hpre htask
    unfold metaBuild
    rw [hspawn]
    show joinAll ⟨[]⟩ (order.map (taskResult env)) = .error e
    rw [horder, List.map_append, List.map_cons, hpre, htask]
    exact joinAll_first_error outs ⟨[]⟩ e (post.map (taskResult env))

/-- C1 (counterexample): with two targets that both fail, the
dispatcher returns only the error of whichever task completes first —
a single backend error that omits the other target's failure — and the
result differs with completion order, so no aggregate of all
per-target failures is reported. -/
theorem dispatcher_not_aggregating :
    metaBuild exEnvBothFail exSvcs [("a", .ko), ("b", .docker)] = .error (.ko 1) ∧
    metaBuild exEnvBothFail exSvcs [("b", .docker), ("a", .ko)] = .error (.docker 2) ∧
    BuildError.ko 1 ≠ BuildError.docker 2 := by
  refine ⟨by decide, by decide, by decide⟩

/-- C1 (witness): the amended theorem applied to an all-success run and
to the first-failure run. -/
theorem dispatcher_first_failure_witness :
    metaBuild exEnvAllOk exSvcs [("a", .ko), ("b", .docker)] =
      .ok ([(⟨[("a", [])]⟩ : Output), ⟨[("b", [])]⟩].foldl Output.merge ⟨[]⟩) ∧
    metaBuild exEnvBothFail exSvcs [("a", .ko), ("b", .docker)] = .error (.ko 1) :=
  ⟨dispatcher_first_failure.1 exEnvAllOk exSvcs [("a", .ko), ("b", .docker)]
      ⟨some 0, none, some 0⟩ [("a", .ko), ("b", .docker)]
      [⟨[("a", [])]⟩, ⟨[("b", [])]⟩] (by decide) (by decide),
   dispatcher_first_failure.2 exEnvBothFail exSvcs [("a", .ko), ("b", .docker)]
      [] ("a", .ko) [("b", .docker)] ⟨some 0, none, some 0⟩
      [("a", .ko), ("b", .docker)] [] (.ko 1) (by decide) rfl rfl (by decide)⟩

end Steiger
